import Mathlib

/-!
Shallow embedding of `src/utils/JSONLoader.py` (class `JSONLoader`).

Python/JSON values are modelled by the inductive `PyVal`; Python `dict`s of
string keys are association lists with unique keys maintained by
`dictInsert` (last value wins, first position kept, as in CPython).
Fallible Python operations return `Except PyErr`; the possible exception
classes relevant to this program are the constructors of `PyErr`.
Floating point is represented symbolically as mantissa times a power of
ten (`PyVal.float m e` stands for m * 10 ^ e); its Python `str()` rendering
is not modelled bit-exactly (no claim depends on it).  Python string
`repr` escaping, `NaN`/`Infinity` extensions of `json.load`, and lone
surrogate escapes are likewise not modelled; no claim depends on them.
-/

inductive PyVal where
  | none
  | bool (b : Bool)
  | int (n : Int)
  | float (m : Int) (e : Int)
  | str (s : String)
  | list (xs : List PyVal)
  | dict (kv : List (String × PyVal))

/-- Single-quote character, used when rendering Python `repr` of strings. -/
def sqt : String := String.singleton (Char.ofNat 39)

mutual

/-- Python `str()`/`repr()` rendering of a `PyVal`.  The flag is true in
`repr` mode (inside containers), false in plain `str` mode. -/
def pyStrRep : Bool → PyVal → String
  | _, PyVal.none => "None"
  | _, PyVal.bool b => if b then "True" else "False"
  | _, PyVal.int n => toString n
  | _, PyVal.float m e => toString m ++ "e" ++ toString e
  | rep, PyVal.str s => if rep then sqt ++ s ++ sqt else s
  | _, PyVal.list xs => "[" ++ String.intercalate ", " (pyStrList xs) ++ "]"
  | _, PyVal.dict kv =>
    "\x7b" ++ String.intercalate ", " (pyStrDict kv) ++ "\x7d"

/-- Render the elements of a Python list in `repr` mode. -/
def pyStrList : List PyVal → List String
  | [] => []
  | v :: vs => pyStrRep true v :: pyStrList vs

/-- Render the entries of a Python dict in `repr` mode. -/
def pyStrDict : List (String × PyVal) → List String
  | [] => []
  | (k, v) :: kvs => (sqt ++ k ++ sqt ++ ": " ++ pyStrRep true v) :: pyStrDict kvs

end

/-- Python `str(v)`: the default string representation used by the f-string
in `get_content`. -/
def pyStr (v : PyVal) : String := pyStrRep false v

/-- Python `dict` update `d[k] = v`: replaces the value in place if the key
exists (keeping its position), otherwise appends. -/
def dictInsert (d : List (String × PyVal)) (k : String) (v : PyVal) :
    List (String × PyVal) :=
  match d with
  | [] => [(k, v)]
  | p :: rest =>
    if p.1 == k then (p.1, v) :: rest else p :: dictInsert rest k v

/-- Python `dict.get(k, default)` on an association list. -/
def dictGet (d : List (String × PyVal)) (k : String) (default : PyVal) :
    PyVal :=
  match d with
  | [] => default
  | p :: rest => if p.1 == k then p.2 else dictGet rest k default

/-- The exception classes this program can raise or catch. -/
inductive PyErr where
  | ioError
  | jsonDecodeError
  | attributeError
  | typeError
  | valueError (msg : String)

/-- Python attribute call `item.get(k, default)`: only `dict`s have `.get`;
on any other value an `AttributeError` is raised. -/
def pyGet (item : PyVal) (k : String) (default : PyVal) :
    Except PyErr PyVal :=
  match item with
  | PyVal.dict d => Except.ok (dictGet d k default)
  | _ => Except.error PyErr.attributeError

/-- Python attribute call `item.items()`: only `dict`s have `.items`. -/
def pyItems (item : PyVal) : Except PyErr (List (String × PyVal)) :=
  match item with
  | PyVal.dict d => Except.ok d
  | _ => Except.error PyErr.attributeError

/-- Python iteration `for item in data`: lists yield their elements, dicts
their keys, strings their characters; other values raise `TypeError`. -/
def pyIter (data : PyVal) : Except PyErr (List PyVal) :=
  match data with
  | PyVal.list xs => Except.ok xs
  | PyVal.dict kv => Except.ok (kv.map (fun p => PyVal.str p.1))
  | PyVal.str s => Except.ok (s.data.map (fun c => PyVal.str (String.singleton c)))
  | _ => Except.error PyErr.typeError

/-- The double-quote character. -/
def qc : Char := Char.ofNat 34

/-- The backslash character. -/
def bsl : Char := Char.ofNat 92

/-- The left-brace character. -/
def lbr : Char := Char.ofNat 123

/-- The right-brace character. -/
def rbr : Char := Char.ofNat 125

/-- JSON insignificant whitespace. -/
def isJsonWs (c : Char) : Bool :=
  c == ' ' || c == '\t' || c == '\n' || c == '\r'

/-- Skip insignificant whitespace. -/
def skipWs : List Char → List Char
  | [] => []
  | c :: cs => if isJsonWs c then skipWs cs else c :: cs

/-- Value of one hex digit. -/
def hexVal (c : Char) : Option Nat :=
  if c.isDigit then Option.some (c.toNat - 48)
  else if 97 ≤ c.toNat ∧ c.toNat ≤ 102 then Option.some (c.toNat - 87)
  else if 65 ≤ c.toNat ∧ c.toNat ≤ 70 then Option.some (c.toNat - 55)
  else Option.none

/-- Parse exactly four hex digits. -/
def parseHex4 : List Char → Option (Nat × List Char)
  | c1 :: c2 :: c3 :: c4 :: rest =>
    match hexVal c1, hexVal c2, hexVal c3, hexVal c4 with
    | Option.some h1, Option.some h2, Option.some h3, Option.some h4 =>
      Option.some (((h1 * 16 + h2) * 16 + h3) * 16 + h4, rest)
    | _, _, _, _ => Option.none
  | _ => Option.none

/-- Digits of a decimal literal to a natural number. -/
def digsToNat (ds : List Char) : Nat :=
  ds.foldl (fun acc c => 10 * acc + (c.toNat - 48)) 0

/-- Parse a JSON number per RFC 8259: optional minus, integer part with no
leading zeros, optional fraction, optional exponent.  A literal with
neither fraction nor exponent becomes a Python `int`; otherwise a `float`,
represented symbolically as mantissa and power of ten. -/
def parseNumber (cs : List Char) : Option (PyVal × List Char) :=
  let signed := match cs with
    | c :: r => if c == '-' then (true, r) else (false, cs)
    | [] => (false, cs)
  match signed.2 with
  | [] => Option.none
  | c :: r =>
    if ¬ c.isDigit then Option.none
    else
      let ip := if c == '0' then ([c], r) else (signed.2).span Char.isDigit
      let fp := match ip.2 with
        | d :: fr =>
          if d == '.' then
            match fr.span Char.isDigit with
            | ([], _) => Option.none
            | (ds, rest) => Option.some (ds, rest)
          else Option.some ([], ip.2)
        | [] => Option.some ([], ip.2)
      match fp with
      | Option.none => Option.none
      | Option.some fpv =>
        let ep := match fpv.2 with
          | d :: er =>
            if d == 'e' || d == 'E' then
              let esigned := match er with
                | s :: er2 =>
                  if s == '+' then (false, er2)
                  else if s == '-' then (true, er2)
                  else (false, er)
                | [] => (false, er)
              match (esigned.2).span Char.isDigit with
              | ([], _) => Option.none
              | (ds, rest) =>
                let ev : Int := Int.ofNat (digsToNat ds)
                Option.some (Option.some (if esigned.1 then -ev else ev), rest)
            else Option.some (Option.none, fpv.2)
          | [] => Option.some (Option.none, fpv.2)
        match ep with
        | Option.none => Option.none
        | Option.some epv =>
          let frac := fpv.1
          let isInt := frac.isEmpty ∧ epv.1 = Option.none
          let mag : Nat := digsToNat (ip.1 ++ frac)
          let mant : Int := if signed.1 then -(Int.ofNat mag) else Int.ofNat mag
          if isInt then Option.some (PyVal.int mant, epv.2)
          else
            let e10 : Int := (epv.1.getD 0) - Int.ofNat frac.length
            Option.some (PyVal.float mant e10, epv.2)

mutual

/-- Parse one JSON value.  Fuel decreases on every recursive call; the top
entry `parseJson` supplies fuel proportional to the input length, which is
always sufficient. -/
def parseValueF : Nat → List Char → Option (PyVal × List Char)
  | 0, _ => Option.none
  | Nat.succ fuel, cs =>
    match skipWs cs with
    | [] => Option.none
    | c :: rest =>
      if c == lbr then
        match skipWs rest with
        | [] => Option.none
        | c1 :: r1 =>
          if c1 == rbr then Option.some (PyVal.dict [], r1)
          else parseMembersF fuel (c1 :: r1) []
      else if c == '[' then
        match skipWs rest with
        | [] => Option.none
        | c1 :: r1 =>
          if c1 == ']' then Option.some (PyVal.list [], r1)
          else parseElemsF fuel (c1 :: r1) []
      else if c == qc then
        match parseStrF fuel rest [] with
        | Option.some p => Option.some (PyVal.str p.1, p.2)
        | Option.none => Option.none
      else if c == 't' then
        match rest with
        | 'r' :: 'u' :: 'e' :: r => Option.some (PyVal.bool true, r)
        | _ => Option.none
      else if c == 'f' then
        match rest with
        | 'a' :: 'l' :: 's' :: 'e' :: r => Option.some (PyVal.bool false, r)
        | _ => Option.none
      else if c == 'n' then
        match rest with
        | 'u' :: 'l' :: 'l' :: r => Option.some (PyVal.none, r)
        | _ => Option.none
      else parseNumber (c :: rest)

/-- Parse the members of a JSON object, starting at a key; duplicate keys
follow Python `dict` semantics through `dictInsert` (last value wins). -/
def parseMembersF : Nat → List Char → List (String × PyVal) →
    Option (PyVal × List Char)
  | 0, _, _ => Option.none
  | Nat.succ fuel, cs, acc =>
    match skipWs cs with
    | [] => Option.none
    | c :: rest =>
      if c == qc then
        match parseStrF fuel rest [] with
        | Option.none => Option.none
        | Option.some kp =>
          match skipWs kp.2 with
          | [] => Option.none
          | c2 :: r2 =>
            if c2 == ':' then
              match parseValueF fuel r2 with
              | Option.none => Option.none
              | Option.some vp =>
                let acc1 := dictInsert acc kp.1 vp.1
                match skipWs vp.2 with
                | [] => Option.none
                | c3 :: r3 =>
                  if c3 == ',' then parseMembersF fuel r3 acc1
                  else if c3 == rbr then Option.some (PyVal.dict acc1, r3)
                  else Option.none
            else Option.none
      else Option.none

/-- Parse the elements of a JSON array (accumulator reversed). -/
def parseElemsF : Nat → List Char → List PyVal → Option (PyVal × List Char)
  | 0, _, _ => Option.none
  | Nat.succ fuel, cs, acc =>
    match parseValueF fuel cs with
    | Option.none => Option.none
    | Option.some vp =>
      match skipWs vp.2 with
      | [] => Option.none
      | c :: r =>
        if c == ',' then parseElemsF fuel r (vp.1 :: acc)
        else if c == ']' then
          Option.some (PyVal.list (vp.1 :: acc).reverse, r)
        else Option.none

/-- Parse the body of a JSON string after the opening quote (accumulator
reversed).  Unescaped control characters are rejected (Python strict mode);
surrogate pairs in escapes are combined.  (Lone surrogates, which Python
would keep, have no `Char` representation and are mapped through
`Char.ofNat`.) -/
def parseStrF : Nat → List Char → List Char → Option (String × List Char)
  | 0, _, _ => Option.none
  | Nat.succ fuel, cs, acc =>
    match cs with
    | [] => Option.none
    | c :: rest =>
      if c == qc then Option.some (String.mk acc.reverse, rest)
      else if c == bsl then
        match rest with
        | [] => Option.none
        | e :: r2 =>
          if e == qc then parseStrF fuel r2 (qc :: acc)
          else if e == bsl then parseStrF fuel r2 (bsl :: acc)
          else if e == '/' then parseStrF fuel r2 ('/' :: acc)
          else if e == 'b' then parseStrF fuel r2 (Char.ofNat 8 :: acc)
          else if e == 'f' then parseStrF fuel r2 (Char.ofNat 12 :: acc)
          else if e == 'n' then parseStrF fuel r2 ('\n' :: acc)
          else if e == 'r' then parseStrF fuel r2 ('\r' :: acc)
          else if e == 't' then parseStrF fuel r2 ('\t' :: acc)
          else if e == 'u' then
            match parseHex4 r2 with
            | Option.none => Option.none
            | Option.some hp =>
              if 0xD800 ≤ hp.1 ∧ hp.1 < 0xDC00 then
                match hp.2 with
                | u1 :: u2 :: r3 =>
                  if u1 == bsl ∧ u2 == 'u' then
                    match parseHex4 r3 with
                    | Option.some lp =>
                      if 0xDC00 ≤ lp.1 ∧ lp.1 < 0xE000 then
                        let code :=
                          0x10000 + (hp.1 - 0xD800) * 0x400 + (lp.1 - 0xDC00)
                        parseStrF fuel lp.2 (Char.ofNat code :: acc)
                      else parseStrF fuel hp.2 (Char.ofNat hp.1 :: acc)
                    | Option.none => parseStrF fuel hp.2 (Char.ofNat hp.1 :: acc)
                  else parseStrF fuel hp.2 (Char.ofNat hp.1 :: acc)
                | _ => parseStrF fuel hp.2 (Char.ofNat hp.1 :: acc)
              else parseStrF fuel r2 (Char.ofNat hp.1 :: acc)
          else Option.none
      else if c.toNat < 32 then Option.none
      else parseStrF fuel rest (c :: acc)

end

/-- Model of `json.load` on the file contents: parse one JSON value, allow
trailing whitespace, reject trailing data.  `Option.none` models
`json.JSONDecodeError`. -/
def parseJson (s : String) : Option PyVal :=
  match parseValueF (10 * (s.length + 1)) s.data with
  | Option.some vp => if (skipWs vp.2).isEmpty then Option.some vp.1 else Option.none
  | Option.none => Option.none

/-- `langchain_core.documents.Document` as the spec's data model describes
it: a content value paired with a metadata mapping.  (Validation performed
by the external library class is outside this repository and not
modelled.) -/
structure Document where
  page_content : PyVal
  metadata : List (String × PyVal)

/-- The `JSONLoader` object: resolved file path plus the two optional
strategies, exactly the fields set by `__init__`. -/
structure JSONLoader where
  file_path : String
  content_key : Option String
  metadata_func : Option (PyVal → Except PyErr (List (String × PyVal)))

/-- Normalise already-split path segments against a reversed-stack
accumulator: empty and `.` segments vanish, `..` pops (staying at the root
when the stack is empty). -/
def normStack : List String → List String → List String
  | acc, [] => acc
  | acc, seg :: rest =>
    if seg = "" ∨ seg = "." then normStack acc rest
    else if seg = ".." then normStack acc.tail rest
    else normStack (seg :: acc) rest

/-- `Path(file_path).resolve()`: make the path absolute against the current
working directory and normalise it.  (Symlink resolution is not modelled;
`resolve()` succeeds for nonexistent paths, as modelled by totality.) -/
def resolvePath (cwd p : String) : String :=
  let full := if p.startsWith "/" then p else cwd ++ "/" ++ p
  "/" ++ String.intercalate "/" (normStack [] (full.splitOn "/")).reverse

/-- `JSONLoader.__init__`: stores the resolved path and the two optional
strategies; a pure function of its arguments (no file system access). -/
def JSONLoader.init (cwd file_path : String) (content_key : Option String)
    (metadata_func : Option (PyVal → Except PyErr (List (String × PyVal)))) :
    JSONLoader :=
  { file_path := resolvePath cwd file_path
    content_key := content_key
    metadata_func := metadata_func }

/-- The join branch of `get_content`:
`"\n".join([f"(key): (value)" for key, value in item.items()])`. -/
def joinItems (item : PyVal) : Except PyErr PyVal :=
  match pyItems item with
  | Except.error e => Except.error e
  | Except.ok kv =>
    Except.ok (PyVal.str
      (String.intercalate "\n" (kv.map (fun p => p.1 ++ ": " ++ pyStr p.2))))

/-- `JSONLoader.get_content`: `if self._content_key:` is a Python
truthiness test, so both `None` and the empty string select the join
branch; otherwise `item.get(self._content_key, "")`. -/
def get_content (ck : Option String) (item : PyVal) : Except PyErr PyVal :=
  match ck with
  | Option.none => joinItems item
  | Option.some k =>
    if k.isEmpty then joinItems item else pyGet item k (PyVal.str "")

/-- `self._metadata_func(item) if self._metadata_func else {}`. -/
def metaOf (L : JSONLoader) (item : PyVal) :
    Except PyErr (List (String × PyVal)) :=
  match L.metadata_func with
  | Option.some f => f item
  | Option.none => Except.ok []

/-- The loop body of `JSONLoader.create_documents` over an element list:
content first, then metadata, then the rest; the first exception aborts the
whole loop, as in Python. -/
def buildDocs (L : JSONLoader) : List PyVal → Except PyErr (List Document)
  | [] => Except.ok []
  | item :: rest =>
    match get_content L.content_key item with
    | Except.error e => Except.error e
    | Except.ok content =>
      match metaOf L item with
      | Except.error e => Except.error e
      | Except.ok metadata =>
        match buildDocs L rest with
        | Except.error e => Except.error e
        | Except.ok docs =>
          Except.ok ({ page_content := content, metadata := metadata } :: docs)

/-- `JSONLoader.create_documents`: iterate over whatever `json.load`
returned and build one `Document` per item. -/
def create_documents (L : JSONLoader) (data : PyVal) :
    Except PyErr (List Document) :=
  match pyIter data with
  | Except.error e => Except.error e
  | Except.ok items => buildDocs L items

/-- The body of the `try` block in `JSONLoader.load`:
`data = json.load(json_file); docs = self.create_documents(data)`.
A parse failure raises `json.JSONDecodeError`. -/
def loadResult (L : JSONLoader) (contents : String) :
    Except PyErr (List Document) :=
  match parseJson contents with
  | Option.none => Except.error PyErr.jsonDecodeError
  | Option.some data => create_documents L data

/-- `JSONLoader.load`.  The file system is a map from paths to contents; a
missing file makes `open` raise an `IOError`-class error, uncaught.  The
`except json.JSONDecodeError` handler catches exactly that error class from
anywhere in the `try` block, prints the diagnostic, and leaves `docs` as
the empty list.  The second component is the list of lines printed to
standard output. -/
def load (L : JSONLoader) (fs : String → Option String) :
    Except PyErr (List Document) × List String :=
  match fs L.file_path with
  | Option.none => (Except.error PyErr.ioError, [])
  | Option.some contents =>
    match loadResult L contents with
    | Except.error PyErr.jsonDecodeError =>
      (Except.ok [], ["Error: Invalid JSON format"])
    | r => (r, [])

/-! Concrete fixtures: small loaders and in-memory file systems used to
instantiate the theorems below on the spec's concrete scenarios. -/

/-- The spec's two-record example file. -/
def fileGood : String :=
  "[\x7b\"title\": \"A\", \"body\": \"hello\"\x7d, \x7b\"title\": \"B\", \"body\": \"world\"\x7d]"

/-- The two records of `fileGood` as parsed values. -/
def wRecs : List PyVal :=
  [PyVal.dict [("title", PyVal.str "A"), ("body", PyVal.str "hello")],
   PyVal.dict [("title", PyVal.str "B"), ("body", PyVal.str "world")]]

/-- A file system holding the example file at one path. -/
def fsGood : String → Option String := fun p =>
  if p == "/home/user/data.json" then Option.some fileGood else Option.none

/-- A second file system that agrees with `fsGood` at the loader's path but
differs elsewhere. -/
def fsGood2 : String → Option String := fun p =>
  if p == "/home/user/data.json" then Option.some fileGood
  else Option.some "[]"

/-- A file system whose file holds the spec's malformed bytes. -/
def fsBadJson : String → Option String := fun p =>
  if p == "/home/user/data.json" then Option.some "\x7binvalid json"
  else Option.none

/-- A file system whose file holds a JSON array with one empty object. -/
def fsOneObj : String → Option String := fun p =>
  if p == "/home/user/data.json" then Option.some "[\x7b\x7d]" else Option.none

/-- A file system whose file holds a JSON array with one number. -/
def fsOneNum : String → Option String := fun p =>
  if p == "/home/user/data.json" then Option.some "[1]" else Option.none

/-- An empty file system: every path is missing. -/
def fsNone : String → Option String := fun _ => Option.none

/-- Loader for the example file with content_key "body". -/
def ldBody : JSONLoader :=
  { file_path := "/home/user/data.json"
    content_key := Option.some "body"
    metadata_func := Option.none }

/-- Loader for the example file with no content_key. -/
def ldPlain : JSONLoader :=
  { file_path := "/home/user/data.json"
    content_key := Option.none
    metadata_func := Option.none }

/-- A metadata strategy that tags each record with itself. -/
def mfTag : PyVal → Except PyErr (List (String × PyVal)) :=
  fun v => Except.ok [("src", v)]

/-- Loader whose metadata strategy is `mfTag`. -/
def ldTag : JSONLoader :=
  { file_path := "/home/user/data.json"
    content_key := Option.none
    metadata_func := Option.some mfTag }

/-- Loader whose metadata strategy raises `json.JSONDecodeError` itself. -/
def ldBadMeta : JSONLoader :=
  { file_path := "/home/user/data.json"
    content_key := Option.none
    metadata_func := Option.some (fun _ => Except.error PyErr.jsonDecodeError) }

/-! Helper lemmas shared by several claim proofs. -/

/-- `get_content` never fails on a mapping, whatever the content key. -/
theorem get_content_dict_ok (ck : Option String) (d : List (String × PyVal)) :
    ∃ c, get_content ck (PyVal.dict d) = Except.ok c := by
  cases ck with
  | none => exact ⟨_, rfl⟩
  | some k =>
    by_cases hk : k.isEmpty
    · exact ⟨PyVal.str (String.intercalate "\n"
        (List.map (fun p => p.1 ++ ": " ++ pyStr p.2) d)),
        by simp only [get_content, if_pos hk]; rfl⟩
    · exact ⟨dictGet d k (PyVal.str ""),
        by simp only [get_content, if_neg hk]; rfl⟩

/-- Structure of a successful `buildDocs` run: one document per item, in
order, with the i-th content and metadata computed from the i-th item. -/
theorem buildDocs_spec (L : JSONLoader) (items : List PyVal)
    (docs : List Document) (h : buildDocs L items = Except.ok docs) :
    docs.length = items.length ∧
    ∀ i (h1 : i < items.length) (h2 : i < docs.length),
      get_content L.content_key (items.get ⟨i, h1⟩) =
        Except.ok ((docs.get ⟨i, h2⟩).page_content) ∧
      metaOf L (items.get ⟨i, h1⟩) =
        Except.ok ((docs.get ⟨i, h2⟩).metadata) := by
  induction items generalizing docs with
  | nil =>
    simp [buildDocs] at h
    subst h
    simp
  | cons item rest ih =>
    rw [buildDocs] at h
    cases hc : get_content L.content_key item with
    | error e => rw [hc] at h; cases h
    | ok content =>
      rw [hc] at h
      cases hm : metaOf L item with
      | error e => rw [hm] at h; cases h
      | ok metadata =>
        rw [hm] at h
        cases hb : buildDocs L rest with
        | error e => rw [hb] at h; cases h
        | ok ds =>
          rw [hb] at h
          cases h
          obtain ⟨ihlen, ihspec⟩ := ih ds hb
          refine ⟨by simp [ihlen], ?_⟩
          intro i h1 h2
          cases i with
          | zero => exact ⟨hc, hm⟩
          | succ j =>
            exact ihspec j (Nat.lt_of_succ_lt_succ h1) (Nat.lt_of_succ_lt_succ h2)

/-- `buildDocs` succeeds when content extraction and metadata derivation
succeed on every item. -/
theorem buildDocs_total (L : JSONLoader) (items : List PyVal)
    (hc : ∀ x ∈ items, ∃ c, get_content L.content_key x = Except.ok c)
    (hm : ∀ x ∈ items, ∃ m, metaOf L x = Except.ok m) :
    ∃ docs, buildDocs L items = Except.ok docs := by
  induction items with
  | nil => exact ⟨[], rfl⟩
  | cons item rest ih =>
    obtain ⟨c, hcv⟩ := hc item (by simp)
    obtain ⟨m, hmv⟩ := hm item (by simp)
    obtain ⟨ds, hds⟩ :=
      ih (fun x hx => hc x (by simp [hx])) (fun x hx => hm x (by simp [hx]))
    exact ⟨_, by rw [buildDocs, hcv, hmv, hds]⟩

/-- When the `try` block succeeds, `load` returns its documents and prints
nothing. -/
theorem load_of_ok (L : JSONLoader) (fs : String → Option String) (s : String)
    (docs : List Document) (hfs : fs L.file_path = Option.some s)
    (hr : loadResult L s = Except.ok docs) :
    load L fs = (Except.ok docs, []) := by
  simp [load, hfs, hr]

/-- `dictGet` returns the default exactly when `find?` finds no entry. -/
theorem dictGet_find_none (d : List (String × PyVal)) (k : String)
    (default : PyVal) (h : d.find? (fun p => p.1 == k) = Option.none) :
    dictGet d k default = default := by
  induction d with
  | nil => rfl
  | cons p rest ih =>
    cases hpk : (p.1 == k) with
    | true => simp [List.find?, hpk] at h
    | false =>
      simp only [List.find?, hpk] at h
      rw [dictGet, hpk]
      exact ih h

/-- `dictGet` returns the value of the entry `find?` finds. -/
theorem dictGet_find_some (d : List (String × PyVal)) (k : String)
    (default : PyVal) (p : String × PyVal)
    (h : d.find? (fun q => q.1 == k) = Option.some p) :
    dictGet d k default = p.2 := by
  induction d with
  | nil => cases h
  | cons q rest ih =>
    cases hqk : (q.1 == k) with
    | true =>
      simp only [List.find?, hqk] at h
      cases h
      simp [dictGet, hqk]
    | false =>
      simp only [List.find?, hqk] at h
      rw [dictGet, hqk]
      exact ih h

/-- Claim C1: for every well-formed input file whose top-level JSON value
is an array of N record mappings (and whose metadata strategy, if set,
succeeds on each record), `load` returns exactly N documents, one per
record, in input order, with the i-th document computed from the i-th
record — no filtering, no skipping, and no diagnostic output. -/
theorem claim_C1 (L : JSONLoader) (fs : String → Option String) (s : String)
    (xs : List PyVal)
    (hfs : fs L.file_path = Option.some s)
    (hp : parseJson s = Option.some (PyVal.list xs))
    (hrec : ∀ x ∈ xs, ∃ d, x = PyVal.dict d)
    (hmf : ∀ x ∈ xs, ∃ m, metaOf L x = Except.ok m) :
    ∃ docs : List Document,
      load L fs = (Except.ok docs, []) ∧
      docs.length = xs.length ∧
      ∀ i (h1 : i < xs.length) (h2 : i < docs.length),
        get_content L.content_key (xs.get ⟨i, h1⟩) =
          Except.ok ((docs.get ⟨i, h2⟩).page_content) ∧
        metaOf L (xs.get ⟨i, h1⟩) =
          Except.ok ((docs.get ⟨i, h2⟩).metadata) := by
  have hc : ∀ x ∈ xs, ∃ c, get_content L.content_key x = Except.ok c := by
    intro x hx
    obtain ⟨d, hd⟩ := hrec x hx
    subst hd
    exact get_content_dict_ok L.content_key d
  obtain ⟨docs, hdocs⟩ := buildDocs_total L xs hc hmf
  have hr : loadResult L s = Except.ok docs := by
    simp [loadResult, hp, create_documents, pyIter, hdocs]
  obtain ⟨hlen, hspec⟩ := buildDocs_spec L xs docs hdocs
  exact ⟨docs, load_of_ok L fs s docs hfs hr, hlen, hspec⟩

/-- Claim C1 witness: the spec's two-record file yields exactly two
documents in input order. -/
theorem claim_C1_witness :
    ∃ docs : List Document,
      load ldBody fsGood = (Except.ok docs, []) ∧
      docs.length = wRecs.length ∧
      ∀ i (h1 : i < wRecs.length) (h2 : i < docs.length),
        get_content ldBody.content_key (wRecs.get ⟨i, h1⟩) =
          Except.ok ((docs.get ⟨i, h2⟩).page_content) ∧
        metaOf ldBody (wRecs.get ⟨i, h1⟩) =
          Except.ok ((docs.get ⟨i, h2⟩).metadata) := by
  refine claim_C1 ldBody fsGood fileGood wRecs rfl rfl ?_ ?_
  · intro x hx
    simp only [wRecs, List.mem_cons, List.not_mem_nil, or_false] at hx
    cases hx with
    | inl h => exact ⟨_, h⟩
    | inr h => exact ⟨_, h⟩
  · intro x _
    exact ⟨[], rfl⟩

/-- Claim C2: when the file exists but its contents are not valid JSON,
`load` catches the decode error, prints the diagnostic line, and returns
the empty document list instead of raising. -/
theorem claim_C2 (L : JSONLoader) (fs : String → Option String) (s : String)
    (hfs : fs L.file_path = Option.some s)
    (hbad : parseJson s = Option.none) :
    load L fs = (Except.ok [], ["Error: Invalid JSON format"]) := by
  simp [load, hfs, loadResult, hbad]

/-- Claim C2 witness: the spec's malformed bytes give the empty list plus
the diagnostic line. -/
theorem claim_C2_witness :
    load ldPlain fsBadJson = (Except.ok [], ["Error: Invalid JSON format"]) :=
  claim_C2 ldPlain fsBadJson "\x7binvalid json" rfl rfl

/-- Claim C3: when the file is missing (or cannot be opened), `load`
propagates the I/O error to the caller uncaught, with no diagnostic and no
empty-list degradation. -/
theorem claim_C3 (L : JSONLoader) (fs : String → Option String)
    (h : fs L.file_path = Option.none) :
    load L fs = (Except.error PyErr.ioError, []) := by
  simp [load, h]

/-- Claim C3 witness: a loader over an empty file system raises the I/O
error. -/
theorem claim_C3_witness :
    load ldPlain fsNone = (Except.error PyErr.ioError, []) :=
  claim_C3 ldPlain fsNone rfl

/-- Claim C4 counterexample: the claim quantifies over every set
content_key, but with content_key set to the empty string (which is falsy
in Python) and a record in which the empty-string key IS present with
value "x", `get_content` returns the synthesized join, not that field's
value. -/
theorem claim_C4_cex :
    dictGet [("", PyVal.str "x")] "" (PyVal.str "") = PyVal.str "x" ∧
    get_content (Option.some "") (PyVal.dict [("", PyVal.str "x")]) ≠
      Except.ok (PyVal.str "x") := by
  refine ⟨rfl, ?_⟩
  intro h
  have h2 : Except.ok (ε := PyErr) (PyVal.str ": x") =
      Except.ok (PyVal.str "x") := h
  injection h2 with h3
  injection h3 with h4
  exact absurd h4 (by decide)

/-- Claim C4 (amended): for every record mapping, when content_key is set
to a NON-EMPTY string, `get_content` performs `item.get(key, "")` and
never raises: if the key is found it returns exactly that field's value,
and if no entry has the key it returns the empty string. -/
theorem claim_C4 (k : String) (hk : ¬ k.isEmpty) (d : List (String × PyVal)) :
    get_content (Option.some k) (PyVal.dict d) =
      Except.ok (dictGet d k (PyVal.str "")) ∧
    (d.find? (fun p => p.1 == k) = Option.none →
      dictGet d k (PyVal.str "") = PyVal.str "") ∧
    (∀ p, d.find? (fun q => q.1 == k) = Option.some p →
      dictGet d k (PyVal.str "") = p.2) := by
  refine ⟨?_, ?_, ?_⟩
  · simp only [get_content, if_neg hk]
    rfl
  · intro h
    exact dictGet_find_none d k (PyVal.str "") h
  · intro p h
    exact dictGet_find_some d k (PyVal.str "") p h

/-- Claim C4 witness: on the spec's first record, content_key "body"
selects "hello", and a key absent from the record gives the empty
string. -/
theorem claim_C4_witness :
    get_content (Option.some "body")
        (PyVal.dict [("title", PyVal.str "A"), ("body", PyVal.str "hello")]) =
      Except.ok (PyVal.str "hello") ∧
    get_content (Option.some "missing")
        (PyVal.dict [("title", PyVal.str "A"), ("body", PyVal.str "hello")]) =
      Except.ok (PyVal.str "") :=
  ⟨(claim_C4 "body" (by decide)
      [("title", PyVal.str "A"), ("body", PyVal.str "hello")]).1,
   (claim_C4 "missing" (by decide)
      [("title", PyVal.str "A"), ("body", PyVal.str "hello")]).1⟩

/-- Claim C5: with no content_key, `get_content` returns one line per
field, formatted key-colon-space-value, joined by newlines in the record's
iteration order; on the spec's first record this is the two-line string
"title: A" then "body: hello". -/
theorem claim_C5 :
    (∀ kv : List (String × PyVal),
      get_content Option.none (PyVal.dict kv) =
        Except.ok (PyVal.str (String.intercalate "\n"
          (kv.map (fun p => p.1 ++ ": " ++ pyStr p.2))))) ∧
    get_content Option.none
        (PyVal.dict [("title", PyVal.str "A"), ("body", PyVal.str "hello")]) =
      Except.ok (PyVal.str "title: A\nbody: hello") := by
  exact ⟨fun kv => rfl, rfl⟩

/-- Claim C6: in a successful document-building pass, a document's
metadata is the empty mapping when metadata_func is unset, and is exactly
metadata_func applied to that document's source record when set. -/
theorem claim_C6 (L : JSONLoader) (items : List PyVal) (docs : List Document)
    (h : buildDocs L items = Except.ok docs) :
    docs.length = items.length ∧
    ∀ i (h1 : i < items.length) (h2 : i < docs.length),
      (L.metadata_func = Option.none → (docs.get ⟨i, h2⟩).metadata = []) ∧
      (∀ f, L.metadata_func = Option.some f →
        f (items.get ⟨i, h1⟩) = Except.ok ((docs.get ⟨i, h2⟩).metadata)) := by
  obtain ⟨hlen, hspec⟩ := buildDocs_spec L items docs h
  refine ⟨hlen, ?_⟩
  intro i h1 h2
  have hm := (hspec i h1 h2).2
  constructor
  · intro hnone
    rw [metaOf, hnone] at hm
    exact (Except.ok.inj hm).symm
  · intro f hf
    rw [metaOf, hf] at hm
    exact hm

/-- Claim C6 witness: with the tagging metadata strategy, the produced
document's metadata is the strategy applied to the record; instantiating
the theorem at a concrete one-record build. -/
theorem claim_C6_witness :
    ([{ page_content := PyVal.str "a: 1",
        metadata := [("src", PyVal.dict [("a", PyVal.int 1)])] }] :
      List Document).length = [PyVal.dict [("a", PyVal.int 1)]].length :=
  (claim_C6 ldTag [PyVal.dict [("a", PyVal.int 1)]]
    [{ page_content := PyVal.str "a: 1",
       metadata := [("src", PyVal.dict [("a", PyVal.int 1)])] }] rfl).1

/-- Claim C7: `load` is deterministic in the file contents: it depends on
the file system only through the contents at the loader's path, so two
calls on an unchanged file — even through different surrounding file
systems — give structurally equal results. -/
theorem claim_C7 (L : JSONLoader) (fs fs2 : String → Option String)
    (h : fs L.file_path = fs2 L.file_path) :
    load L fs = load L fs2 := by
  unfold load
  rw [h]

/-- Claim C7 witness: two file systems agreeing on the loader's file give
equal document sequences. -/
theorem claim_C7_witness : load ldBody fsGood = load ldBody fsGood2 :=
  claim_C7 ldBody fsGood fsGood2 rfl

/-- Claim C8 counterexample: not only malformed-JSON parse failures are
swallowed.  A metadata strategy that itself raises `json.JSONDecodeError`
makes document building fail, yet `load` catches it, prints the
diagnostic, and returns the empty list instead of propagating. -/
theorem claim_C8_cex :
    create_documents ldBadMeta (PyVal.list [PyVal.dict []]) =
      Except.error PyErr.jsonDecodeError ∧
    load ldBadMeta fsOneObj = (Except.ok [], ["Error: Invalid JSON format"]) :=
  ⟨rfl, rfl⟩

/-- Claim C8 (amended): an exception of any class other than
`json.JSONDecodeError` raised while building documents — for example by a
caller-supplied metadata_func, or by key/field access on an array element
that is not a mapping — is not converted into an empty result and
propagates to the caller. -/
theorem claim_C8 (L : JSONLoader) (fs : String → Option String) (s : String)
    (data : PyVal) (e : PyErr)
    (hfs : fs L.file_path = Option.some s)
    (hp : parseJson s = Option.some data)
    (hcd : create_documents L data = Except.error e)
    (he : e ≠ PyErr.jsonDecodeError) :
    load L fs = (Except.error e, []) := by
  have hr : loadResult L s = Except.error e := by
    simp [loadResult, hp, hcd]
  cases e with
  | jsonDecodeError => exact absurd rfl he
  | ioError => simp [load, hfs, hr]
  | attributeError => simp [load, hfs, hr]
  | typeError => simp [load, hfs, hr]
  | valueError msg => simp [load, hfs, hr]

/-- Claim C8 witness: a file whose array holds the number 1 makes the
field iteration in `get_content` raise `AttributeError`, which `load`
propagates. -/
theorem claim_C8_witness :
    load ldPlain fsOneNum = (Except.error PyErr.attributeError, []) :=
  claim_C8 ldPlain fsOneNum "[1]" (PyVal.list [PyVal.int 1])
    PyErr.attributeError rfl rfl rfl (fun h => PyErr.noConfusion h)

/-- Claim C9: the empty string content_key is falsy in Python, so
`get_content` behaves exactly as if content_key were unset, synthesizing
the joined rendering; in particular a record with an empty-string field
never has that field selected as content. -/
theorem claim_C9 :
    (∀ item, get_content (Option.some "") item = get_content Option.none item) ∧
    get_content (Option.some "") (PyVal.dict [("", PyVal.str "x")]) =
      Except.ok (PyVal.str ": x") :=
  ⟨fun _ => rfl, rfl⟩

/-- Claim C10: construction is a pure function of its arguments — it
consults no file system, succeeds on every path string including
nonexistent ones, stores the resolved absolute form of the path (always
rooted at "/"), and stores content_key and metadata_func unchanged. -/
theorem claim_C10 (cwd p : String) (ck : Option String)
    (mf : Option (PyVal → Except PyErr (List (String × PyVal)))) :
    (JSONLoader.init cwd p ck mf).content_key = ck ∧
    (JSONLoader.init cwd p ck mf).metadata_func = mf ∧
    (JSONLoader.init cwd p ck mf).file_path = resolvePath cwd p ∧
    ∃ t, (JSONLoader.init cwd p ck mf).file_path = "/" ++ t :=
  ⟨rfl, rfl, rfl, ⟨_, rfl⟩⟩
